import Mathlib

/-!
Shallow embedding of the mandelterm sources (src/complex.rs, src/view.rs).

Conventions of the embedding:
* Rust `u16` values are modelled as `Nat`; every arithmetic step the source
  performs on `u16` is followed by an explicit `% 65536`, the release-profile
  (wrapping) overflow semantics.  All statements about grids are faithful for
  the `u16` range `width, height < 65536`, which covers every value the Rust
  type can hold.
* A Rust computation that can panic is modelled with `RunResult`: `ok` carries
  the returned value and `panicked` carries the panic message.  The message of
  `Vec`'s out-of-range indexing panic (which in Rust also contains the length
  and index) is modelled by the constant string "index out of bounds"; the
  `expect` message in `View::unchecked_at` is taken verbatim from the source.
* The iterator `ViewIter` is a state machine; `runIter` unfolds it, stopping at
  the first `None` exactly like every `std` consumer (`for_each`, `for`,
  `collect`) does.  `View.iterItems` runs it with fuel `width * height`, which
  is sufficient: for `width, height < 65536` the k-th call to `next` is at
  coordinate `(k % width, k / width)`, and the bounds check already fails at
  `k = width * height`, so the yielded prefix is never longer than the fuel.
-/

namespace Mandelterm

/-- Outcome of a Rust computation: a value, or a panic with its message. -/
inductive RunResult (α : Type) where
  | ok : α → RunResult α
  | panicked : String → RunResult α
  deriving DecidableEq, Repr

/-- `Complex<T>` from src/complex.rs: two components named `real` and
`imaginary`, generic over the element type. -/
structure Complex (T : Type) where
  real : T
  imaginary : T
  deriving DecidableEq, Repr

/-- The `Add` impl for `Complex<T>`: componentwise sum. -/
def Complex.add [Add T] (a b : Complex T) : Complex T :=
  { real := a.real + b.real, imaginary := a.imaginary + b.imaginary }

/-- The `Sub` impl for `Complex<T>`: componentwise difference. -/
def Complex.sub [Sub T] (a b : Complex T) : Complex T :=
  { real := a.real - b.real, imaginary := a.imaginary - b.imaginary }

/-- The `Mul` impl for `Complex<T>`: componentwise product (the source does
not cross-multiply). -/
def Complex.mul [Mul T] (a b : Complex T) : Complex T :=
  { real := a.real * b.real, imaginary := a.imaginary * b.imaginary }

/-- `Complex::powi` from src/complex.rs: `for _ in 0..n` squares both
components once per iteration.  The Rust range `0..n` over `i32` is empty for
`n ≤ 0`, hence the `Int.toNat`. -/
def Complex.powi [Mul T] (p : Complex T) (n : Int) : Complex T :=
  (List.range n.toNat).foldl
    (fun acc _ => { real := acc.real * acc.real, imaginary := acc.imaginary * acc.imaginary })
    p

/-- Modelled from the spec: one application of "square each component
independently". -/
def Complex.squareOnce [Mul T] (p : Complex T) : Complex T :=
  { real := p.real * p.real, imaginary := p.imaginary * p.imaginary }

/-- Modelled from the spec: repeat "square each component independently"
`n` times, starting from `p`'s own components. -/
def squareIter [Mul T] : Nat → Complex T → Complex T
  | 0, p => p
  | n + 1, p => squareIter n p.squareOnce

/-- Modelled from the spec: true complex multiplication, stated only to be
contrasted with the source's componentwise `Mul` impl. -/
def trueComplexMul [Add T] [Sub T] [Mul T] (a b : Complex T) : Complex T :=
  { real := a.real * b.real - a.imaginary * b.imaginary,
    imaginary := a.real * b.imaginary + a.imaginary * b.real }

/-- `View` from src/view.rs: a fixed-size 2D boolean grid.  `width` and
`height` are `u16` in the source; the embedding is faithful for values below
`65536`. -/
structure View where
  width : Nat
  height : Nat
  symbol_off : Char
  symbol_on : Char
  buffer : List Bool
  deriving DecidableEq, Repr

/-- `View::new`: the buffer holds `width * height` cells, all `false`.  The
size is computed in `u16` (`(width * height) as usize`), hence the wrap. -/
def View.new (width height : Nat) : View :=
  { width := width
    height := height
    symbol_off := '░'
    symbol_on := '█'
    buffer := List.replicate (width * height % 65536) false }

/-- `View::set_symbols`: replaces the two display characters. -/
def View.set_symbols (v : View) (offSym onSym : Char) : View :=
  { v with symbol_off := offSym, symbol_on := onSym }

/-- `View::dimensions`. -/
def View.dimensions (v : View) : Nat × Nat := (v.width, v.height)

/-- `View::index`: `(y * self.height + x) as usize`, two `u16` operations.
Note the source multiplies `y` by `height`, not by `width`. -/
def View.index (v : View) (x y : Nat) : Nat :=
  (y * v.height + x) % 65536

/-- `View::bounds_check`: `x < self.width && y < self.height`. -/
def View.bounds_check (v : View) (x y : Nat) : Bool :=
  decide (x < v.width) && decide (y < v.height)

/-- `View::checked_index`: `self.bounds_check(x, y).then(|| self.index(x, y))`. -/
def View.checked_index (v : View) (x y : Nat) : Option Nat :=
  if v.bounds_check x y then some (v.index x y) else none

/-- `View::at`: `self.checked_index(x, y).map(|idx| self.buffer[idx])`.
`self.buffer[idx]` panics when `idx` is not below the buffer length.
(Named `at'` because `at` is a reserved word in Lean.) -/
def View.at' (v : View) (x y : Nat) : RunResult (Option Bool) :=
  match v.checked_index x y with
  | some idx =>
    match v.buffer.get? idx with
    | some b => RunResult.ok (some b)
    | none => RunResult.panicked ("index out of bounds")
  | none => RunResult.ok none

/-- `View::unchecked_at`: `self.at(x, y).expect("Given coordinate not inside View")`. -/
def View.unchecked_at (v : View) (x y : Nat) : RunResult Bool :=
  match v.at' x y with
  | RunResult.ok (some b) => RunResult.ok b
  | RunResult.ok none => RunResult.panicked ("Given coordinate not inside View")
  | RunResult.panicked m => RunResult.panicked m

/-- `View::set`: on a valid `checked_index` writes through `self.buffer[idx] = value`
and returns `true`; otherwise leaves the grid untouched and returns `false`.
The write panics exactly when `idx` is not below the buffer length, i.e. when
the lookup `buffer.get? idx` is absent — the guard is phrased through the
lookup so that evaluation on concrete grids stays linear in `idx`. -/
def View.set (v : View) (x y : Nat) (value : Bool) : RunResult (View × Bool) :=
  match v.checked_index x y with
  | some idx =>
    match v.buffer.get? idx with
    | some _ => RunResult.ok ({ v with buffer := v.buffer.set idx value }, true)
    | none => RunResult.panicked ("index out of bounds")
  | none => RunResult.ok (v, false)

/-- The state of `ViewIter` from src/view.rs. -/
structure ViewIter where
  view : View
  x : Nat
  y : Nat

/-- `ViewIter::next`: computes the item through `checked_index` and
`buffer.get(idx)` (the non-panicking lookup), then advances `x` and `y`
(`u16` increments, hence the wraps). -/
def ViewIter.next (it : ViewIter) : Option (Nat × Nat × Bool) × ViewIter :=
  let val := ((it.view.checked_index it.x it.y).bind
      (fun idx => it.view.buffer.get? idx)).map (fun b => (it.x, it.y, b))
  let x1 := (it.x + 1) % 65536
  if x1 = it.view.width then
    (val, { it with x := 0, y := (it.y + 1) % 65536 })
  else
    (val, { it with x := x1 })

/-- `View::iter`: a fresh traversal starting at `(0, 0)`. -/
def View.iter (v : View) : ViewIter :=
  { view := v, x := 0, y := 0 }

/-- Unfold an iterator, stopping at the first `None`, exactly as every `std`
consumer of the iterator does. -/
def runIter : ViewIter → Nat → List (Nat × Nat × Bool)
  | _, 0 => []
  | it, fuel + 1 =>
    match it.next with
    | (some item, it') => item :: runIter it' fuel
    | (none, _) => []

/-- The sequence of items a consumer of `View::iter` observes.  Fuel
`width * height` is sufficient for `u16` dimensions (see the header comment). -/
def View.iterItems (v : View) : List (Nat × Nat × Bool) :=
  runIter v.iter (v.width * v.height)

/-- The `Display` impl for `View`: one symbol per yielded item, and a newline
after every item whose `x` equals `self.width - 1` (a `u16` subtraction). -/
def View.render (v : View) : String :=
  v.iterItems.foldl
    (fun buf item =>
      let buf1 := buf.push (if item.2.2 then v.symbol_on else v.symbol_off)
      if item.1 = (v.width + 65535) % 65536 then buf1.push '\n' else buf1)
    ""

/-- Modelled from the spec: the in-bounds coordinates of a `W×H` grid in
row-major order, `x` varying fastest. -/
def rowMajor (w h : Nat) : List (Nat × Nat) :=
  (List.range h).flatMap (fun y => (List.range w).map (fun x => (x, y)))

/-- The boolean stored at the buffer position coordinate `(x, y)` maps to
(`false` when the position is outside the buffer). -/
def View.cellAt (v : View) (x y : Nat) : Bool :=
  (v.buffer.get? (v.index x y)).getD false

/-- Modelled from the spec: the full row-major item list `iterate()` is
claimed to produce. -/
def View.itemsSpec (v : View) : List (Nat × Nat × Bool) :=
  (rowMajor v.width v.height).map (fun p => (p.1, p.2, v.cellAt p.1 p.2))

/-- Modelled from the spec: one rendered row, `width` symbols followed by a
newline. -/
def View.rowString (v : View) (y : Nat) : String :=
  String.mk
    (((List.range v.width).map
      (fun x => if v.cellAt x y then v.symbol_on else v.symbol_off)) ++ ['\n'])

/-- Modelled from the spec: the rendering claimed by the spec, every row
followed by a newline, the final row included. -/
def View.renderSpec (v : View) : String :=
  String.join ((List.range v.height).map (fun y => v.rowString y))

/-- Helper for stating frame effects: the rendering obtained after
`set x y true`, or `none` when the write failed or panicked. -/
def View.renderAfterSet (v : View) (x y : Nat) : Option String :=
  match v.set x y true with
  | RunResult.ok (v', true) => some v'.render
  | _ => none

/-- Helper for stating frame effects: read `(x2, y2)` after writing `b`
at `(x, y)`; a panic in `set` is propagated. -/
def View.atAfterSet (v : View) (x y : Nat) (b : Bool) (x2 y2 : Nat) : RunResult (Option Bool) :=
  match v.set x y b with
  | RunResult.ok (v', _) => v'.at' x2 y2
  | RunResult.panicked m => RunResult.panicked m

/-! ### Helper lemmas -/

theorem get?_replicate (a : α) : ∀ (n i : Nat),
    (List.replicate n a).get? i = if i < n then some a else none
  | 0, _ => by simp [List.replicate]
  | n + 1, 0 => by simp [List.replicate]
  | n + 1, i + 1 => by
    simp only [List.replicate, List.get?]
    rw [get?_replicate a n i]
    by_cases h : i < n <;> simp [h, Nat.succ_lt_succ_iff]

theorem squareIter_squareOnce [Mul T] : ∀ (n : Nat) (p : Complex T),
    squareIter n p.squareOnce = (squareIter n p).squareOnce
  | 0, _ => rfl
  | n + 1, p => by
    simp only [squareIter]
    exact squareIter_squareOnce n p.squareOnce

theorem foldl_square_range [Mul T] : ∀ (n : Nat) (p : Complex T),
    (List.range n).foldl (fun acc _ => acc.squareOnce) p = squareIter n p
  | 0, _ => rfl
  | n + 1, p => by
    rw [List.range_succ, List.foldl_append, foldl_square_range n p]
    show (squareIter n p).squareOnce = squareIter (n + 1) p
    rw [squareIter, squareIter_squareOnce]

theorem powi_eq_squareIter [Mul T] (p : Complex T) (n : Nat) :
    p.powi (Int.ofNat n) = squareIter n p :=
  foldl_square_range n p

/-! ### Claims about `Complex` (src/complex.rs) -/

/-- C6: for every pair `p` and every non-negative integer `n`, `powi p n`
squares each component independently `n` times starting from `p`'s own
components; `powi p 0` is the unmodified input, and the concrete examples
`powi (2,5) 1 = (4,25)`, `powi (2,5) 2 = (16,625)`,
`powi (2,5) 3 = (256,390625)` hold. -/
theorem claim6_powi_squares_n_times :
    (∀ (T : Type) [Mul T] (p : Complex T) (n : Int), 0 ≤ n → p.powi n = squareIter n.toNat p)
    ∧ (∀ (T : Type) [Mul T] (p : Complex T), p.powi 0 = p)
    ∧ (Complex.mk (2 : Int) 5).powi 1 = Complex.mk 4 25
    ∧ (Complex.mk (2 : Int) 5).powi 2 = Complex.mk 16 625
    ∧ (Complex.mk (2 : Int) 5).powi 3 = Complex.mk 256 390625 := by
  refine ⟨?_, ?_, by decide, by decide, by decide⟩
  · intro T _ p n hn
    obtain ⟨m, rfl⟩ := Int.eq_ofNat_of_zero_le hn
    rw [Int.toNat_natCast]
    exact powi_eq_squareIter p m
  · intro T _ p
    rfl

/-- Witness for C6 at the concrete input `p = (2,5) : Complex ℤ`, `n = 3`. -/
theorem claim6_witness :
    (0 : Int) ≤ 3
    ∧ (Complex.mk (2 : Int) 5).powi 3 = squareIter ((3 : Int)).toNat (Complex.mk 2 5) :=
  ⟨by decide, claim6_powi_squares_n_times.1 Int (Complex.mk 2 5) 3 (by decide)⟩

/-- C7: `add`, `sub` and `mul` on pairs are all componentwise — in particular
multiplication is elementwise and not true complex multiplication — and the
concrete examples `(2,5)+(7,2)=(9,7)`, `(12,3)−(10,−5)=(2,8)`,
`(2,5)*(7,2)=(14,10)` hold. -/
theorem claim7_elementwise_arithmetic :
    (∀ (T : Type) [Add T] (a b : Complex T),
      Complex.add a b = Complex.mk (a.real + b.real) (a.imaginary + b.imaginary))
    ∧ (∀ (T : Type) [Sub T] (a b : Complex T),
      Complex.sub a b = Complex.mk (a.real - b.real) (a.imaginary - b.imaginary))
    ∧ (∀ (T : Type) [Mul T] (a b : Complex T),
      Complex.mul a b = Complex.mk (a.real * b.real) (a.imaginary * b.imaginary))
    ∧ Complex.add (Complex.mk (2 : Int) 5) (Complex.mk 7 2) = Complex.mk 9 7
    ∧ Complex.sub (Complex.mk (12 : Int) 3) (Complex.mk 10 (-5)) = Complex.mk 2 8
    ∧ Complex.mul (Complex.mk (2 : Int) 5) (Complex.mk 7 2) = Complex.mk 14 10
    ∧ Complex.mul (Complex.mk (2 : Int) 5) (Complex.mk 7 2)
      ≠ trueComplexMul (Complex.mk (2 : Int) 5) (Complex.mk 7 2) := by
  exact ⟨fun _ _ _ _ => rfl, fun _ _ _ _ => rfl, fun _ _ _ _ => rfl,
    by decide, by decide, by decide, by decide⟩

/-- C10: a negative exponent makes the squaring loop of `powi` run zero
times, so the input is returned unchanged and no error is signaled. -/
theorem claim10_powi_negative_identity :
    ∀ (T : Type) [Mul T] (p : Complex T) (n : Int), n < 0 → p.powi n = p := by
  intro T _ p n hn
  unfold Complex.powi
  rw [Int.toNat_of_nonpos (Int.le_of_lt hn)]
  rfl

/-- Witness for C10 at the concrete input `p = (3,4) : Complex ℤ`, `n = -2`. -/
theorem claim10_witness :
    (-2 : Int) < 0 ∧ (Complex.mk (3 : Int) 4).powi (-2) = Complex.mk 3 4 :=
  ⟨by decide, claim10_powi_negative_identity Int (Complex.mk 3 4) (-2) (by decide)⟩

/-! ### Helper lemmas about `View` access -/

theorem checked_index_pos (v : View) (x y : Nat) (hx : x < v.width) (hy : y < v.height) :
    v.checked_index x y = some (v.index x y) := by
  simp [View.checked_index, View.bounds_check, hx, hy]

theorem checked_index_neg (v : View) (x y : Nat) (h : ¬(x < v.width ∧ y < v.height)) :
    v.checked_index x y = none := by
  rw [Classical.not_and_iff_or_not_not] at h
  rcases h with h | h <;> simp [View.checked_index, View.bounds_check, h]

theorem at_pos (v : View) (x y : Nat) (hx : x < v.width) (hy : y < v.height) :
    v.at' x y = (match v.buffer.get? (v.index x y) with
      | some b => RunResult.ok (some b)
      | none => RunResult.panicked ("index out of bounds")) := by
  unfold View.at'
  rw [checked_index_pos v x y hx hy]

theorem at_pos_lt (v : View) (x y : Nat) (hx : x < v.width) (hy : y < v.height)
    (hl : v.index x y < v.buffer.length) :
    v.at' x y = RunResult.ok (some (v.buffer.get ⟨v.index x y, hl⟩)) := by
  rw [at_pos v x y hx hy, List.get?_eq_get hl]

theorem at_pos_ge (v : View) (x y : Nat) (hx : x < v.width) (hy : y < v.height)
    (hl : ¬ v.index x y < v.buffer.length) :
    v.at' x y = RunResult.panicked ("index out of bounds") := by
  rw [at_pos v x y hx hy, List.get?_eq_none.mpr (Nat.le_of_not_lt hl)]

theorem at_neg (v : View) (x y : Nat) (h : ¬(x < v.width ∧ y < v.height)) :
    v.at' x y = RunResult.ok none := by
  unfold View.at'
  rw [checked_index_neg v x y h]

theorem set_pos (v : View) (x y : Nat) (value : Bool) (hx : x < v.width) (hy : y < v.height) :
    v.set x y value = (match v.buffer.get? (v.index x y) with
      | some _ => RunResult.ok ({ v with buffer := v.buffer.set (v.index x y) value }, true)
      | none => RunResult.panicked ("index out of bounds")) := by
  unfold View.set
  rw [checked_index_pos v x y hx hy]

theorem set_pos_lt (v : View) (x y : Nat) (value : Bool) (hx : x < v.width) (hy : y < v.height)
    (hl : v.index x y < v.buffer.length) :
    v.set x y value = RunResult.ok ({ v with buffer := v.buffer.set (v.index x y) value }, true) := by
  rw [set_pos v x y value hx hy, List.get?_eq_get hl]

theorem set_pos_ge (v : View) (x y : Nat) (value : Bool) (hx : x < v.width) (hy : y < v.height)
    (hl : ¬ v.index x y < v.buffer.length) :
    v.set x y value = RunResult.panicked ("index out of bounds") := by
  rw [set_pos v x y value hx hy, List.get?_eq_none.mpr (Nat.le_of_not_lt hl)]

theorem set_neg (v : View) (x y : Nat) (value : Bool) (h : ¬(x < v.width ∧ y < v.height)) :
    v.set x y value = RunResult.ok (v, false) := by
  unfold View.set
  rw [checked_index_neg v x y h]

theorem set_ok_shape (v : View) (x y : Nat) (value : Bool) (v' : View) (r : Bool)
    (h : v.set x y value = RunResult.ok (v', r)) :
    (r = true ∧ v' = { v with buffer := v.buffer.set (v.index x y) value }
      ∧ x < v.width ∧ y < v.height ∧ v.index x y < v.buffer.length)
    ∨ (r = false ∧ v' = v ∧ ¬(x < v.width ∧ y < v.height)) := by
  by_cases hb : x < v.width ∧ y < v.height
  · by_cases hl : v.index x y < v.buffer.length
    · rw [set_pos_lt v x y value hb.1 hb.2 hl] at h
      obtain ⟨h1, h2⟩ := Prod.mk.injEq .. ▸ RunResult.ok.inj h
      exact Or.inl ⟨h2.symm, h1.symm, hb.1, hb.2, hl⟩
    · rw [set_pos_ge v x y value hb.1 hb.2 hl] at h
      exact absurd h (by simp)
  · rw [set_neg v x y value hb] at h
    obtain ⟨h1, h2⟩ := Prod.mk.injEq .. ▸ RunResult.ok.inj h
    exact Or.inr ⟨h2.symm, h1.symm, hb⟩

/-! ### Claims about `View` bounded access (src/view.rs) -/

/-- C1 counterexample: on a 2×3 grid the coordinate (1, 2) is in bounds
(`1 < width = 2`, `2 < height = 3`), yet `at` panics instead of returning a
present value, and `set` panics instead of returning `true`, because the
index `2 * height + 1 = 7` falls outside the 6-cell buffer. -/
theorem claim1_counterexample :
    (1 : Nat) < 2 ∧ (2 : Nat) < 3
    ∧ (View.new 2 3).at' 1 2 = RunResult.panicked ("index out of bounds")
    ∧ (View.new 2 3).set 1 2 true = RunResult.panicked ("index out of bounds") := by
  decide

/-- C1 (amended): `at` returns a present value iff the coordinate is in
bounds AND its flat index falls inside the buffer; it returns an absent value
iff the coordinate is out of bounds (and panics in the remaining case);
`set` returns `true` under the same two conditions and `false` exactly on
out-of-bounds coordinates, mutating nothing in that case; a successful `set`
is observed by an immediately following `at`. -/
theorem claim1_bounds_checked_access :
    ∀ (v : View) (x y : Nat) (value : Bool),
    ((∃ b, v.at' x y = RunResult.ok (some b)) ↔
      x < v.width ∧ y < v.height ∧ v.index x y < v.buffer.length)
    ∧ (v.at' x y = RunResult.ok none ↔ ¬(x < v.width ∧ y < v.height))
    ∧ ((∃ v', v.set x y value = RunResult.ok (v', true)) ↔
      x < v.width ∧ y < v.height ∧ v.index x y < v.buffer.length)
    ∧ (v.set x y value = RunResult.ok (v, false) ↔ ¬(x < v.width ∧ y < v.height))
    ∧ (∀ v', v.set x y value = RunResult.ok (v', true) →
        v'.at' x y = RunResult.ok (some value)) := by
  intro v x y value
  by_cases hb : x < v.width ∧ y < v.height
  · by_cases hl : v.index x y < v.buffer.length
    · refine ⟨⟨fun _ => ⟨hb.1, hb.2, hl⟩, fun _ => ⟨_, at_pos_lt v x y hb.1 hb.2 hl⟩⟩,
        ⟨fun h => ?_, fun h => absurd hb h⟩,
        ⟨fun _ => ⟨hb.1, hb.2, hl⟩, fun _ => ⟨_, set_pos_lt v x y value hb.1 hb.2 hl⟩⟩,
        ⟨fun h => ?_, fun h => absurd hb h⟩, fun v' hset => ?_⟩
      · rw [at_pos_lt v x y hb.1 hb.2 hl] at h
        exact absurd (RunResult.ok.inj h) (by simp)
      · rw [set_pos_lt v x y value hb.1 hb.2 hl] at h
        have := (Prod.mk.injEq .. ▸ RunResult.ok.inj h).2
        simp at this
      · rcases set_ok_shape v x y value v' true hset with ⟨_, rfl, _, _, _⟩ | ⟨h, _, _⟩
        · have hw : ({ v with buffer := v.buffer.set (v.index x y) value } : View).width
            = v.width := rfl
          have hh : ({ v with buffer := v.buffer.set (v.index x y) value } : View).height
            = v.height := rfl
          have hidx : ({ v with buffer := v.buffer.set (v.index x y) value } : View).index x y
            = v.index x y := rfl
          have hlen : v.index x y
              < ({ v with buffer := v.buffer.set (v.index x y) value } : View).buffer.length := by
            simpa [List.length_set] using hl
          rw [at_pos_lt _ x y (hw ▸ hb.1) (hh ▸ hb.2) (hidx ▸ hlen)]
          congr 1
          rw [← List.get?_eq_get]
          simpa [hidx] using List.get?_set_eq_of_lt value hl
        · exact absurd h (by simp)
    · refine ⟨⟨fun ⟨b, h⟩ => ?_, fun h => absurd h.2.2 hl⟩,
        ⟨fun h => ?_, fun h => absurd hb h⟩,
        ⟨fun ⟨v', h⟩ => ?_, fun h => absurd h.2.2 hl⟩,
        ⟨fun h => ?_, fun h => absurd hb h⟩, fun v' hset => ?_⟩
      · rw [at_pos_ge v x y hb.1 hb.2 hl] at h
        exact absurd h (by simp)
      · rw [at_pos_ge v x y hb.1 hb.2 hl] at h
        exact absurd h (by simp)
      · rw [set_pos_ge v x y value hb.1 hb.2 hl] at h
        exact absurd h (by simp)
      · rw [set_pos_ge v x y value hb.1 hb.2 hl] at h
        exact absurd h (by simp)
      · rw [set_pos_ge v x y value hb.1 hb.2 hl] at hset
        exact absurd hset (by simp)
  · refine ⟨⟨fun ⟨b, h⟩ => ?_, fun h => absurd ⟨h.1, h.2.1⟩ hb⟩,
      ⟨fun _ => hb, fun _ => at_neg v x y hb⟩,
      ⟨fun ⟨v', h⟩ => ?_, fun h => absurd ⟨h.1, h.2.1⟩ hb⟩,
      ⟨fun _ => hb, fun _ => set_neg v x y value hb⟩, fun v' hset => ?_⟩
    · rw [at_neg v x y hb] at h
      exact absurd (RunResult.ok.inj h) (by simp)
    · rw [set_neg v x y value hb] at h
      have := (Prod.mk.injEq .. ▸ RunResult.ok.inj h).2
      simp at this
    · rw [set_neg v x y value hb] at hset
      have := (Prod.mk.injEq .. ▸ RunResult.ok.inj hset).2
      simp at this

/-- Witness for C1: on a 3×2 grid, writing `true` at (2, 1) succeeds and an
immediately following read returns it. -/
theorem claim1_witness :
    (View.new 3 2).set 2 1 true
      = RunResult.ok (View.mk 3 2 '░' '█' [false, false, false, false, true, false], true)
    ∧ (View.mk 3 2 '░' '█' [false, false, false, false, true, false]).at' 2 1
      = RunResult.ok (some true) :=
  ⟨by decide,
    (claim1_bounds_checked_access (View.new 3 2) 2 1 true).2.2.2.2 _ (by decide)⟩

set_option maxRecDepth 4000 in
/-- C2 counterexample: the index computation is done in `u16` and wraps.  On
a 1×300 grid the in-bounds coordinate (0, 219) has `y * height + x = 65700`,
but the index actually used is `65700 % 65536 = 164`, and `at` consequently
returns a present value (the raw index 65700 would be far outside the
300-cell buffer). -/
theorem claim2_counterexample :
    (View.new 1 300).bounds_check 0 219 = true
    ∧ (View.new 1 300).index 0 219 ≠ 219 * (View.new 1 300).height + 0
    ∧ (View.new 1 300).index 0 219 = 164
    ∧ 219 * (View.new 1 300).height + 0 = 65700
    ∧ (View.new 1 300).buffer.length = 300
    ∧ (View.new 1 300).at' 0 219 = RunResult.ok (some false) := by
  refine ⟨rfl, by decide, by decide, by decide, ?_, ?_⟩ <;> rfl

/-- C2 (amended): the mapping from a coordinate to a flat buffer position,
used by every access path through `checked_index` (`at`, `unchecked_at`,
`set`, iteration) is `(y * height + x) mod 2^16` — `u16` arithmetic on the
source's `y * height + x`, still based on `height` rather than the
conventional `width` — and it is fixed at construction: neither `set` nor
`set_symbols` changes it. -/
theorem claim2_index_formula :
    ∀ (v : View) (x y : Nat),
    v.index x y = (y * v.height + x) % 65536
    ∧ v.checked_index x y
      = (if x < v.width ∧ y < v.height then some (v.index x y) else none)
    ∧ (∀ c1 c2, (v.set_symbols c1 c2).index x y = v.index x y)
    ∧ (∀ x0 y0 b v' r, v.set x0 y0 b = RunResult.ok (v', r) → v'.index x y = v.index x y)
    ∧ (x < v.width → y < v.height →
        v.at' x y = (match v.buffer.get? (v.index x y) with
          | some b => RunResult.ok (some b)
          | none => RunResult.panicked ("index out of bounds")))
    ∧ (x < v.width → y < v.height → ∀ b,
        v.set x y b = (match v.buffer.get? (v.index x y) with
          | some _ => RunResult.ok ({ v with buffer := v.buffer.set (v.index x y) b }, true)
          | none => RunResult.panicked ("index out of bounds"))) := by
  intro v x y
  refine ⟨rfl, ?_, fun _ _ => rfl, fun x0 y0 b v' r hset => ?_,
    fun hx hy => at_pos v x y hx hy, fun hx hy b => set_pos v x y b hx hy⟩
  · by_cases hb : x < v.width ∧ y < v.height
    · rw [checked_index_pos v x y hb.1 hb.2, if_pos hb]
    · rw [checked_index_neg v x y hb, if_neg hb]
  · rcases set_ok_shape v x0 y0 b v' r hset with ⟨_, rfl, _⟩ | ⟨_, rfl, _⟩ <;> rfl

/-- Witness for C2 at the 3×2 grid and coordinate (1, 1): `at` reads the
buffer at the mapped index. -/
theorem claim2_witness :
    (1 : Nat) < 3 ∧ (1 : Nat) < 2
    ∧ (View.new 3 2).at' 1 1 = RunResult.ok (some false) := by
  refine ⟨by decide, by decide, ?_⟩
  have h := (claim2_index_formula (View.new 3 2) 1 1).2.2.2.2.1 (by decide) (by decide)
  rw [h]
  decide

/-- C5 counterexample: on a 2×3 grid, `unchecked_at (1, 2)` hits an in-bounds
coordinate (`1 < 2`, `2 < 3`) and still takes a fatal path — but with the
buffer's index-out-of-range panic, not the message identifying a coordinate
outside the grid. -/
theorem claim5_counterexample :
    (1 : Nat) < 2 ∧ (2 : Nat) < 3
    ∧ (View.new 2 3).unchecked_at 1 2 = RunResult.panicked ("index out of bounds")
    ∧ ("index out of bounds" : String) ≠ "Given coordinate not inside View" := by
  decide

/-- C5 (amended): `unchecked_at` panics with the message identifying a
coordinate outside the grid exactly when `x ≥ width ∨ y ≥ height`; on
in-bounds coordinates it returns the stored value when the flat index is
inside the buffer and otherwise panics with the buffer's own
index-out-of-range message. -/
theorem claim5_unchecked_at_fatal_path :
    ∀ (v : View) (x y : Nat),
    (v.unchecked_at x y = RunResult.panicked ("Given coordinate not inside View")
      ↔ ¬(x < v.width ∧ y < v.height))
    ∧ (x < v.width → y < v.height → v.index x y < v.buffer.length →
        v.unchecked_at x y = RunResult.ok (v.cellAt x y))
    ∧ (x < v.width → y < v.height → ¬ v.index x y < v.buffer.length →
        v.unchecked_at x y = RunResult.panicked ("index out of bounds")) := by
  intro v x y
  refine ⟨⟨fun h => ?_, fun h => ?_⟩, fun hx hy hl => ?_, fun hx hy hl => ?_⟩
  · by_contra hb
    by_cases hl : v.index x y < v.buffer.length
    · rw [View.unchecked_at, at_pos_lt v x y hb.1 hb.2 hl] at h
      exact absurd h (by simp)
    · rw [View.unchecked_at, at_pos_ge v x y hb.1 hb.2 hl] at h
      have := RunResult.panicked.inj h
      simp at this
  · rw [View.unchecked_at, at_neg v x y h]
  · rw [View.unchecked_at, at_pos_lt v x y hx hy hl]
    have : v.cellAt x y = v.buffer.get ⟨v.index x y, hl⟩ := by
      rw [View.cellAt, List.get?_eq_get hl]
      rfl
    rw [this]
  · rw [View.unchecked_at, at_pos_ge v x y hx hy hl]

/-- Witness for C5 at the 3×2 grid, coordinate (2, 1), whose flat index
`1 * 2 + 2 = 4` is inside the 6-cell buffer. -/
theorem claim5_witness :
    (2 : Nat) < 3 ∧ (1 : Nat) < 2
    ∧ (View.new 3 2).index 2 1 < (View.new 3 2).buffer.length
    ∧ (View.new 3 2).unchecked_at 2 1 = RunResult.ok ((View.new 3 2).cellAt 2 1) :=
  ⟨by decide, by decide, by decide,
    (claim5_unchecked_at_fatal_path (View.new 3 2) 2 1).2.1 (by decide) (by decide) (by decide)⟩

/-- C8 counterexample: `new(256, 256)` computes the buffer size in `u16`, so
`256 * 256 = 65536` wraps to 0 and the allocated buffer is empty rather than
holding `width * height` cells. -/
theorem claim8_counterexample :
    (View.new 256 256).buffer.length = 0 ∧ (0 : Nat) ≠ 256 * 256 := by
  decide

/-- C8 (amended): every fresh grid satisfies
`cells.length = (width * height) mod 2^16` — equal to `width * height`
whenever that product fits in a `u16` — with all cells `false` and no error
case, and every subsequent operation (`set`, `set_symbols`) preserves the
buffer length, the width and the height. -/
theorem claim8_buffer_invariants :
    ∀ (w h : Nat),
    (View.new w h).buffer = List.replicate (w * h % 65536) false
    ∧ (View.new w h).buffer.length = w * h % 65536
    ∧ (w * h < 65536 → (View.new w h).buffer.length = w * h)
    ∧ (View.new w h).width = w ∧ (View.new w h).height = h
    ∧ (∀ i, i < (View.new w h).buffer.length → (View.new w h).buffer.get? i = some false)
    ∧ (∀ (v : View) (x y : Nat) (b : Bool) (v' : View) (r : Bool),
        v.set x y b = RunResult.ok (v', r) →
        v'.buffer.length = v.buffer.length ∧ v'.width = v.width ∧ v'.height = v.height)
    ∧ (∀ (v : View) (c1 c2 : Char),
        (v.set_symbols c1 c2).buffer = v.buffer
        ∧ (v.set_symbols c1 c2).width = v.width
        ∧ (v.set_symbols c1 c2).height = v.height) := by
  intro w h
  refine ⟨rfl, by simp [View.new], fun hov => by simp [View.new, Nat.mod_eq_of_lt hov],
    rfl, rfl, fun i hi => ?_, fun v x y b v' r hset => ?_, fun v c1 c2 => ⟨rfl, rfl, rfl⟩⟩
  · have hbuf : (View.new w h).buffer = List.replicate (w * h % 65536) false := rfl
    rw [hbuf] at hi ⊢
    rw [List.length_replicate] at hi
    rw [get?_replicate, if_pos hi]
  · rcases set_ok_shape v x y b v' r hset with ⟨_, rfl, _⟩ | ⟨_, rfl, _⟩
    · exact ⟨by simp [List.length_set], rfl, rfl⟩
    · exact ⟨rfl, rfl, rfl⟩

/-- Witness for C8: the no-overflow length equation and the preservation
property, instantiated on a 3×2 grid and a concrete successful `set`. -/
theorem claim8_witness :
    3 * 2 < 65536
    ∧ (View.new 3 2).buffer.length = 3 * 2
    ∧ (View.new 3 2).set 2 1 true
      = RunResult.ok (View.mk 3 2 '░' '█' [false, false, false, false, true, false], true)
    ∧ (View.mk 3 2 '░' '█' [false, false, false, false, true, false]).buffer.length
        = (View.new 3 2).buffer.length :=
  ⟨by decide, (claim8_buffer_invariants 3 2).2.2.1 (by decide), by decide,
    ((claim8_buffer_invariants 3 2).2.2.2.2.2.2.1 (View.new 3 2) 2 1 true _ true (by decide)).1⟩

/-- C9: on the 80×40 grid (the one the program's driver builds), the distinct
in-bounds coordinates (40, 0) and (0, 1) map to the same flat index 40, so
writing `true` at (40, 0) changes the value subsequently read at (0, 1). -/
theorem claim9_inbounds_aliasing :
    ((40 : Nat), (0 : Nat)) ≠ ((0 : Nat), (1 : Nat))
    ∧ (View.new 80 40).bounds_check 40 0 = true
    ∧ (View.new 80 40).bounds_check 0 1 = true
    ∧ (View.new 80 40).index 40 0 = 40
    ∧ (View.new 80 40).index 0 1 = 40
    ∧ (View.new 80 40).at' 0 1 = RunResult.ok (some false)
    ∧ (View.new 80 40).atAfterSet 40 0 true 0 1 = RunResult.ok (some true) := by
  refine ⟨by decide, by decide, by decide, by decide, by decide, ?_, ?_⟩ <;> rfl

/-! ### Helper lemmas for the iterator traversal -/

theorem flatMap_single {α β : Type} : ∀ (l : List α) (f : α → β),
    l.flatMap (fun x => [f x]) = l.map f
  | [], _ => rfl
  | a :: l, f => by
    rw [List.flatMap_cons, flatMap_single l f, List.map_cons]
    rfl

theorem index_no_wrap (v : View) (hhw : v.height ≤ v.width) (hov : v.width * v.height < 65536)
    (x y : Nat) (hx : x < v.width) (hy : y < v.height) :
    v.index x y = y * v.height + x ∧ y * v.height + x < v.width * v.height := by
  have hh1 : 0 < v.height := Nat.lt_of_le_of_lt (Nat.zero_le y) hy
  have e1 : y * v.height ≤ (v.height - 1) * v.height :=
    Nat.mul_le_mul_right _ (by omega)
  have e2 : (v.height - 1) * v.height ≤ (v.height - 1) * v.width :=
    Nat.mul_le_mul_left _ hhw
  have e3 : (v.height - 1) * v.width + v.width = v.height * v.width := by
    have h4 : v.height - 1 + 1 = v.height := by omega
    calc (v.height - 1) * v.width + v.width
        = (v.height - 1 + 1) * v.width := (Nat.succ_mul ..).symm
      _ = v.height * v.width := by rw [h4]
  have hcomm : v.height * v.width = v.width * v.height := Nat.mul_comm ..
  refine ⟨Nat.mod_eq_of_lt (by omega), by omega⟩

theorem next_step (v : View) (x y : Nat) (hx : x < v.width) (hy : y < v.height)
    (hl : v.index x y < v.buffer.length) :
    ViewIter.next ⟨v, x, y⟩
      = (some (x, y, v.cellAt x y),
         if (x + 1) % 65536 = v.width then ⟨v, 0, (y + 1) % 65536⟩
         else ⟨v, (x + 1) % 65536, y⟩) := by
  obtain ⟨b, hb⟩ : ∃ b, v.buffer.get? (v.index x y) = some b := ⟨_, List.get?_eq_get hl⟩
  have hb2 : v.buffer[v.index x y]? = some b := by
    rw [← List.get?_eq_getElem?]
    exact hb
  have hcell : v.cellAt x y = b := by
    rw [View.cellAt, hb]
    rfl
  simp only [ViewIter.next, checked_index_pos v x y hx hy, hb, Option.bind_some,
    Option.map_some', hcell]
  by_cases hc : (x + 1) % 65536 = v.width
  · rw [if_pos hc, if_pos hc]
    simp [hb2]
  · rw [if_neg hc, if_neg hc]
    simp [hb2]

theorem runIter_succ (it : ViewIter) (fuel : Nat) :
    runIter it (fuel + 1) = (match it.next with
      | (some item, it') => item :: runIter it' fuel
      | (none, _) => []) := rfl

theorem runIter_cons (v : View) (x y fuel : Nat) (hx : x < v.width) (hy : y < v.height)
    (hl : v.index x y < v.buffer.length) :
    runIter ⟨v, x, y⟩ (fuel + 1)
      = (x, y, v.cellAt x y) ::
        runIter (if (x + 1) % 65536 = v.width then ⟨v, 0, (y + 1) % 65536⟩
          else ⟨v, (x + 1) % 65536, y⟩) fuel := by
  rw [runIter_succ, next_step v x y hx hy hl]

theorem runIter_go (v : View) (hlen : v.buffer.length = v.width * v.height)
    (hhw : v.height ≤ v.width) (hov : v.width * v.height < 65536) :
    ∀ (fuel x y : Nat), x < v.width → fuel + (y * v.width + x) = v.width * v.height →
    runIter ⟨v, x, y⟩ fuel
      = (List.range' (y * v.width + x) fuel).map
          (fun k => (k % v.width, k / v.width, v.cellAt (k % v.width) (k / v.width))) := by
  intro fuel
  induction fuel with
  | zero => intro x y _ _; rfl
  | succ fuel ih =>
    intro x y hx hfuel
    have hw1 : 0 < v.width := Nat.lt_of_le_of_lt (Nat.zero_le x) hx
    have hy : y < v.height := by
      rcases Nat.lt_or_ge y v.height with h | h
      · exact h
      · exfalso
        have h1 : v.height * v.width ≤ y * v.width := Nat.mul_le_mul_right _ h
        have h2 : v.height * v.width = v.width * v.height := Nat.mul_comm ..
        omega
    have hh1 : 0 < v.height := Nat.lt_of_le_of_lt (Nat.zero_le y) hy
    have hw65 : v.width < 65536 :=
      Nat.lt_of_le_of_lt (Nat.le_mul_of_pos_right v.width hh1) hov
    have hh65 : v.height < 65536 := Nat.lt_of_le_of_lt hhw hw65
    have hnw := index_no_wrap v hhw hov x y hx hy
    have hl : v.index x y < v.buffer.length := by
      rw [hlen, hnw.1]
      exact hnw.2
    rw [runIter_cons v x y fuel hx hy hl, List.range'_succ, List.map_cons]
    have hx1 : (x + 1) % 65536 = x + 1 := Nat.mod_eq_of_lt (by omega)
    have hcoord1 : (y * v.width + x) % v.width = x := by
      rw [Nat.mul_comm y v.width, Nat.mul_add_mod, Nat.mod_eq_of_lt hx]
    have hcoord2 : (y * v.width + x) / v.width = y := by
      rw [Nat.mul_comm y v.width, Nat.mul_add_div hw1, Nat.div_eq_of_lt hx]
      omega
    rw [hx1]
    by_cases hxe : x + 1 = v.width
    · rw [if_pos hxe]
      have hy1 : (y + 1) % 65536 = y + 1 := Nat.mod_eq_of_lt (by omega)
      rw [hy1]
      have harg : (y + 1) * v.width + 0 = y * v.width + x + 1 := by
        rw [Nat.succ_mul]
        omega
      rw [ih 0 (y + 1) hw1 (by omega), harg, hcoord1, hcoord2]
    · rw [if_neg hxe]
      have harg : y * v.width + (x + 1) = y * v.width + x + 1 := by omega
      rw [ih (x + 1) y (by omega) (by omega), harg, hcoord1, hcoord2]

theorem range_mul_divmod {α : Type} (w : Nat) (hw : 0 < w) (f : Nat → Nat → α) :
    ∀ h : Nat, (List.range (w * h)).map (fun k => f (k % w) (k / w))
      = (List.range h).flatMap (fun y => (List.range w).map (fun x => f x y))
  | 0 => by simp
  | h + 1 => by
    rw [Nat.mul_succ, List.range_add, List.map_append, List.map_map,
      range_mul_divmod w hw f h, List.range_succ, List.flatMap_append]
    have hlast : (List.range w).map ((fun k => f (k % w) (k / w)) ∘ (fun i => w * h + i))
        = (List.range w).map (fun x => f x h) := by
      refine List.map_congr_left (fun i hi => ?_)
      have hiw : i < w := List.mem_range.mp hi
      show f ((w * h + i) % w) ((w * h + i) / w) = f i h
      rw [Nat.mul_add_mod, Nat.mod_eq_of_lt hiw, Nat.mul_add_div hw,
        Nat.div_eq_of_lt hiw]
      rfl
    rw [hlast]
    simp

theorem rowMajor_length : ∀ (w h : Nat), (rowMajor w h).length = w * h
  | w, 0 => by simp [rowMajor]
  | w, h + 1 => by
    have ih := rowMajor_length w h
    simp only [rowMajor] at ih ⊢
    rw [List.range_succ, List.flatMap_append, List.length_append, ih]
    simp [Nat.mul_succ]

theorem itemsSpec_flatMap (v : View) :
    v.itemsSpec = (List.range v.height).flatMap
      (fun y => (List.range v.width).map (fun x => (x, y, v.cellAt x y))) := by
  rw [View.itemsSpec, rowMajor, List.map_flatMap]
  simp only [List.map_map]
  rfl

theorem iterItems_eq (v : View) (hlen : v.buffer.length = v.width * v.height)
    (hhw : v.height ≤ v.width) (hov : v.width * v.height < 65536) :
    v.iterItems = v.itemsSpec := by
  by_cases hw : 0 < v.width
  · have hrun := runIter_go v hlen hhw hov (v.width * v.height) 0 0 hw (by omega)
    have hzero : (0 : Nat) * v.width + 0 = 0 := by omega
    rw [hzero] at hrun
    rw [View.iterItems, View.iter, hrun, ← List.range_eq_range',
      range_mul_divmod v.width hw (fun a b => (a, b, v.cellAt a b)) v.height,
      itemsSpec_flatMap]
  · have hw0 : v.width = 0 := by omega
    have hh0 : v.height = 0 := by omega
    have hfuel : v.width * v.height = 0 := by rw [hw0]; omega
    rw [View.iterItems, View.iter, hfuel, itemsSpec_flatMap, hh0]
    rfl

/-! ### Helper lemmas for rendering -/

theorem push_data (s : String) (c : Char) : (s.push c).data = s.data ++ [c] := rfl

theorem append_data (s t : String) : (s ++ t).data = s.data ++ t.data := rfl

theorem foldl_render_data (v : View) : ∀ (l : List (Nat × Nat × Bool)) (s : String),
    (l.foldl (fun buf item =>
      let buf1 := buf.push (if item.2.2 then v.symbol_on else v.symbol_off)
      if item.1 = (v.width + 65535) % 65536 then buf1.push '\n' else buf1) s).data
    = s.data ++ l.flatMap (fun item =>
        (if item.2.2 then v.symbol_on else v.symbol_off)
          :: (if item.1 = (v.width + 65535) % 65536 then ['\n'] else []))
  | [], s => by simp
  | item :: l, s => by
    rw [List.foldl_cons, foldl_render_data v l, List.flatMap_cons]
    by_cases hc : item.1 = (v.width + 65535) % 65536 <;>
      simp [hc, push_data, List.append_assoc]

theorem render_data (v : View) :
    (v.render).data = v.iterItems.flatMap (fun item =>
      (if item.2.2 then v.symbol_on else v.symbol_off)
        :: (if item.1 = (v.width + 65535) % 65536 then ['\n'] else [])) := by
  rw [View.render, foldl_render_data v v.iterItems ""]
  rfl

theorem foldl_append_data : ∀ (l : List String) (s : String),
    (l.foldl (fun r t => r ++ t) s).data = s.data ++ l.flatMap String.data
  | [], s => by simp
  | a :: l, s => by
    rw [List.foldl_cons, foldl_append_data l, List.flatMap_cons, append_data,
      List.append_assoc]

theorem join_data (l : List String) : (String.join l).data = l.flatMap String.data := by
  show (l.foldl (fun r t => r ++ t) "").data = l.flatMap String.data
  rw [foldl_append_data l]
  rfl

theorem rowString_data (v : View) (y : Nat) :
    (v.rowString y).data
      = (List.range v.width).map
          (fun x => if v.cellAt x y then v.symbol_on else v.symbol_off) ++ ['\n'] := rfl

theorem row_chars (v : View) (hw1 : 0 < v.width) (hw65 : v.width < 65536) (y : Nat) :
    (List.range v.width).flatMap
      (fun x => (if v.cellAt x y then v.symbol_on else v.symbol_off)
        :: (if x = (v.width + 65535) % 65536 then ['\n'] else []))
    = (List.range v.width).map
        (fun x => if v.cellAt x y then v.symbol_on else v.symbol_off) ++ ['\n'] := by
  obtain ⟨w', hw'⟩ : ∃ w', v.width = w' + 1 := ⟨v.width - 1, by omega⟩
  have hw65' : w' + 1 < 65536 := hw' ▸ hw65
  simp only [hw']
  have hc : (w' + 1 + 65535) % 65536 = w' := by omega
  simp only [hc]
  rw [List.range_succ, List.flatMap_append, List.map_append]
  have hpre : (List.range w').flatMap
      (fun x => (if v.cellAt x y then v.symbol_on else v.symbol_off)
        :: (if x = w' then ['\n'] else []))
      = (List.range w').map (fun x => if v.cellAt x y then v.symbol_on else v.symbol_off) := by
    rw [← flatMap_single (List.range w')
      (fun x => if v.cellAt x y then v.symbol_on else v.symbol_off)]
    refine List.flatMap_congr ?_
    intro x hx
    have hxlt : x < w' := List.mem_range.mp hx
    have hne : ¬(x = w') := by omega
    rw [if_neg hne]
  rw [hpre]
  simp

theorem render_eq_renderSpec (v : View) (hlen : v.buffer.length = v.width * v.height)
    (hhw : v.height ≤ v.width) (hov : v.width * v.height < 65536) :
    v.render = v.renderSpec := by
  have hd : (v.render).data = (v.renderSpec).data := by
    rw [render_data v, iterItems_eq v hlen hhw hov, itemsSpec_flatMap v,
      View.renderSpec, join_data, List.flatMap_map]
    by_cases hh : 0 < v.height
    · have hw1 : 0 < v.width := Nat.lt_of_lt_of_le hh hhw
      have hw65 : v.width < 65536 :=
        Nat.lt_of_le_of_lt (Nat.le_mul_of_pos_right v.width hh) hov
      rw [List.flatMap_assoc]
      refine List.flatMap_congr ?_
      intro y _
      show ((List.range v.width).map (fun x => (x, y, v.cellAt x y))).flatMap
          (fun item => (if item.2.2 then v.symbol_on else v.symbol_off)
            :: (if item.1 = (v.width + 65535) % 65536 then ['\n'] else []))
        = (v.rowString y).data
      rw [List.flatMap_map, rowString_data]
      exact row_chars v hw1 hw65 y
    · have hh0 : v.height = 0 := by omega
      rw [hh0]
      rfl
  calc v.render = String.mk (v.render).data := rfl
    _ = String.mk (v.renderSpec).data := by rw [hd]
    _ = v.renderSpec := rfl

/-- C3 counterexample: on a 2×3 grid each traversal stops after 4 items
instead of yielding `2 * 3 = 6`, because the coordinate (0, 2) maps to flat
index `2 * height + 0 = 6`, outside the 6-cell buffer, which ends the
iteration early. -/
theorem claim3_counterexample :
    (View.new 2 3).iterItems.length = 4
    ∧ (4 : Nat) ≠ 2 * 3
    ∧ (View.new 2 3).iterItems
      = [(0, 0, false), (1, 0, false), (0, 1, false), (1, 1, false)] := by
  decide

/-- C3 (amended): each call to `iter()` starts a fresh traversal from (0, 0)
over the coordinates in row-major order with `x` varying fastest, but the
yielded sequence ends at the first coordinate whose flat index falls outside
the buffer.  Whenever every in-bounds coordinate maps inside the buffer — in
particular for any grid with `height ≤ width` and `width * height < 2^16`
whose buffer length is `width * height` — the traversal yields exactly
`W * H` triples `(x, y, value)` in the order (0,0), (1,0), …, (W−1,0),
(0,1), …; an empty grid yields zero items.  (Repeated calls trivially agree:
in the embedding the item sequence is a pure function of the grid.) -/
theorem claim3_iteration_row_major :
    (∀ (v : View), v.buffer.length = v.width * v.height → v.height ≤ v.width →
      v.width * v.height < 65536 →
      v.iterItems = v.itemsSpec ∧ v.iterItems.length = v.width * v.height)
    ∧ (∀ w h : Nat, w * h = 0 → (View.new w h).iterItems = []) := by
  constructor
  · intro v hlen hhw hov
    have heq := iterItems_eq v hlen hhw hov
    refine ⟨heq, ?_⟩
    rw [heq, View.itemsSpec, List.length_map, rowMajor_length]
  · intro w h h0
    show runIter ⟨View.new w h, 0, 0⟩ ((View.new w h).width * (View.new w h).height) = []
    have hwh : (View.new w h).width * (View.new w h).height = 0 := h0
    rw [hwh, runIter]

/-- Witness for C3 on the 3×2 grid: 2 ≤ 3, `3 * 2 = 6 < 2^16`, and the
traversal yields the full 6-item row-major sequence. -/
theorem claim3_witness :
    (View.new 3 2).buffer.length = (View.new 3 2).width * (View.new 3 2).height
    ∧ (View.new 3 2).height ≤ (View.new 3 2).width
    ∧ (View.new 3 2).width * (View.new 3 2).height < 65536
    ∧ (View.new 3 2).iterItems = (View.new 3 2).itemsSpec
    ∧ (View.new 3 2).iterItems.length = (View.new 3 2).width * (View.new 3 2).height :=
  ⟨by decide, by decide, by decide,
    (claim3_iteration_row_major.1 (View.new 3 2) (by decide) (by decide) (by decide)).1,
    (claim3_iteration_row_major.1 (View.new 3 2) (by decide) (by decide) (by decide)).2⟩

/-- C4 counterexample: rendering the 2×3 grid emits only 6 characters —
4 cell symbols and 2 line breaks — while one character per cell plus a line
break after each of the 3 rows would give `2 * 3 + 3 = 9`; the third row is
never rendered because the traversal stops early. -/
theorem claim4_counterexample :
    (View.new 2 3).render = "░░\n░░\n"
    ∧ (View.new 2 3).render.length = 6
    ∧ (6 : Nat) ≠ 2 * 3 + 3 := by
  refine ⟨by decide, by decide, by decide⟩

/-- C4 (amended): the rendering emits one character per yielded iteration
item — `symbol_on` for true cells, `symbol_off` for false cells, in the
iteration order — with a line break immediately after each item in the last
column.  For grids whose traversal covers every cell (in particular
`height ≤ width`, `width * height < 2^16`, buffer length `width * height`)
this is exactly one character per cell with a line break after every row,
the final row included.  A freshly created 2×2 grid renders as
off, off, newline, off, off, newline, and toggling any one cell via `set`
changes exactly the corresponding rendered character. -/
theorem claim4_render_rows :
    (∀ (v : View), v.buffer.length = v.width * v.height → v.height ≤ v.width →
      v.width * v.height < 65536 → v.render = v.renderSpec)
    ∧ (View.new 2 2).render = "░░\n░░\n"
    ∧ (View.new 2 2).renderAfterSet 0 0 = some ("█░\n░░\n")
    ∧ (View.new 2 2).renderAfterSet 1 0 = some ("░█\n░░\n")
    ∧ (View.new 2 2).renderAfterSet 0 1 = some ("░░\n█░\n")
    ∧ (View.new 2 2).renderAfterSet 1 1 = some ("░░\n░█\n") :=
  ⟨fun v hlen hhw hov => render_eq_renderSpec v hlen hhw hov,
    by decide, by decide, by decide, by decide, by decide⟩

/-- Witness for C4 on the 3×2 grid: the hypotheses hold and the rendering is
exactly the two full rows, each closed by a newline. -/
theorem claim4_witness :
    (View.new 3 2).buffer.length = (View.new 3 2).width * (View.new 3 2).height
    ∧ (View.new 3 2).height ≤ (View.new 3 2).width
    ∧ (View.new 3 2).width * (View.new 3 2).height < 65536
    ∧ (View.new 3 2).render = (View.new 3 2).renderSpec
    ∧ (View.new 3 2).renderSpec = "░░░\n░░░\n" :=
  ⟨by decide, by decide, by decide,
    claim4_render_rows.1 (View.new 3 2) (by decide) (by decide) (by decide), by decide⟩

end Mandelterm
